import Mathlib

/-!
# PCSX-Redux Lua wrapper (`src/core/luawrapper.cc`)

A shallow embedding of the methods of `PCSX::Lua` and of the part of the
Lua 5.1 / LuaJIT C API they drive, followed by the properties established
about them.

Conventions.

* A byte is a `Fin 256`; a `std::string`, a Lua string and a C string are
  lists of bytes (`Bytes`).
* The VM stack is a list of values, bottom first: the element at absolute
  index 1 is the head of the list, the top of the stack is the last element.
* `int` values are `Int`; every quantity that the code computes on them
  (stack heights, call-stack levels, indices) is bounded by the VM far below
  `2^31`, so no wrap-around is modelled.
* The virtual machine itself (table lookup with metamethods, running code,
  opening libraries, the debug interface) is an external collaborator: it
  appears as the fields of `Machine` or as function parameters.
-/

namespace PCSX

/-! ## Bytes and strings -/

/-- One `char` of a `std::string`, as an unsigned byte. -/
abbrev Byte := Fin 256

/-- A byte string: `std::string`, Lua string, or the bytes of a C string. -/
abbrev Bytes := List Byte

/-- The bytes of an ASCII string literal. -/
def ascii (s : String) : Bytes :=
  s.toList.map (fun c => ⟨c.toNat % 256, Nat.mod_lt _ (by decide)⟩)

/-- The bytes of `std::to_string(n)` for an `int` n: its decimal numeral, with
a leading minus sign when negative. -/
def decimal (n : Int) : Bytes := ascii (toString n)

/-! ## `Lua::escapeString` (luawrapper.cc, lines 253-277) -/

namespace Lua

/-- One iteration of the loop of `escapeString`: the `switch (s[i])` appending
to `r`. Byte values: 34 is the double quote, 92 the backslash, 10 LF, 13 CR,
0 NUL, 110 the letter n, 114 the letter r, 48 the digit zero. -/
def escapeStep (r : Bytes) (c : Byte) : Bytes :=
  if c = 34 ∨ c = 92 then (r ++ [92]) ++ [c]
  else if c = 10 then r ++ [92, 110]
  else if c = 13 then r ++ [92, 114]
  else if c = 0 then r ++ [92, 48, 48, 48]
  else r ++ [c]

/-- The method `Lua::escapeString`: `r` starts empty and the loop runs over
the bytes of `s` in order. The loop index is an `int`; it visits every byte of
a string shorter than 2^31 bytes, the strings considered here. -/
def escapeString (s : Bytes) : Bytes :=
  s.foldl escapeStep []

end Lua

/-! ### Reader of Lua double-quoted literals (the decoding side of the
round trip; written from the description of the literal syntax, not from the
wrapper) -/

/-- Decimal digit test on a byte. -/
def isDigit (b : Byte) : Bool := decide (48 ≤ b.val) && decide (b.val ≤ 57)

/-- Value of a decimal digit byte. -/
def digitVal (b : Byte) : Nat := b.val - 48

/-- The byte of a decimal escape, when it fits in a byte. -/
def escapeByte (n : Nat) : Option Byte :=
  if h : n < 256 then some ⟨n, h⟩ else none

/-- Decodes one escape sequence; the argument is the text that follows the
backslash. The result is the decoded byte and the text after the sequence.
A decimal escape takes up to three digits. -/
def readEscape : Bytes → Option (Byte × Bytes)
  | [] => none
  | e :: rest1 =>
    if e = 34 then some (34, rest1)
    else if e = 92 then some (92, rest1)
    else if e = 110 then some (10, rest1)
    else if e = 114 then some (13, rest1)
    else if isDigit e then
      match rest1 with
      | [] => (escapeByte (digitVal e)).map (fun b => (b, []))
      | d2 :: rest2 =>
        if isDigit d2 then
          match rest2 with
          | [] => (escapeByte (10 * digitVal e + digitVal d2)).map (fun b => (b, []))
          | d3 :: rest3 =>
            if isDigit d3 then
              (escapeByte (100 * digitVal e + 10 * digitVal d2 + digitVal d3)).map
                (fun b => (b, rest3))
            else
              (escapeByte (10 * digitVal e + digitVal d2)).map (fun b => (b, d3 :: rest3))
        else
          (escapeByte (digitVal e)).map (fun b => (b, d2 :: rest2))
    else none

/-- Reads the body of a double-quoted literal up to the first unescaped
double quote. `acc` holds the decoded bytes, most recent first. The result is
the decoded string together with the text that follows the closing quote;
`none` is a lexical error (unfinished literal, raw LF, unknown or too large
escape). Every step consumes at least one byte, so a step budget equal to the
length of the text plus one is never exhausted. -/
def readLuaBody : Nat → Bytes → Bytes → Option (Bytes × Bytes)
  | 0, _, _ => none
  | _ + 1, [], _ => none
  | budget + 1, c :: rest, acc =>
    if c = 34 then some (acc.reverse, rest)
    else if c = 10 then none
    else if c = 92 then
      match readEscape rest with
      | some (b, rest1) => readLuaBody budget rest1 (b :: acc)
      | none => none
    else readLuaBody budget rest (c :: acc)

/-- Reads one double-quoted literal from the start of the text: the opening
quote, then the body. -/
def readLuaString : Bytes → Option (Bytes × Bytes)
  | [] => none
  | c :: rest => if c = 34 then readLuaBody (rest.length + 1) rest [] else none

/-- Scans a literal body for a double quote in unescaped position: a
backslash protects the byte that follows it. -/
def hasBareQuote : Bytes → Bool
  | [] => false
  | c :: rest =>
    if c = 92 then
      match rest with
      | [] => false
      | _ :: rest1 => hasBareQuote rest1
    else if c = 34 then true
    else hasBareQuote rest

/-! ## Lua values, the VM stack and index resolution -/

/-- A Lua value. Collectable objects are identified by a reference; a number
is identified by the bit pattern of its `double`. -/
inductive Value where
  | nil
  | boolean (b : Bool)
  | lightuserdata (p : Nat)
  | number (bits : Nat)
  | string (s : Bytes)
  | table (ref : Nat)
  | function (ref : Nat)
  | userdata (ref : Nat)
  | thread (ref : Nat)
  deriving DecidableEq, Repr

/-- The VM stack, bottom first (absolute index 1 is the head). -/
abbrev Stack := List Value

/-- Pseudo-index of the registry (`lua.h`). -/
def LUA_REGISTRYINDEX : Int := -10000
/-- Pseudo-index of the globals table (`lua.h`). -/
def LUA_GLOBALSINDEX : Int := -10002

/-- The limit of `luaconf.h` on the number of stack slots of a C function: the
height of the stack seen through the API never exceeds it. -/
def LUAI_MAXCSTACK : Nat := 8000

/-- Thread status codes of `lua.h`. -/
def LUA_YIELD : Int := 1
def LUA_ERRRUN : Int := 2
def LUA_ERRSYNTAX : Int := 3
def LUA_ERRMEM : Int := 4
def LUA_ERRERR : Int := 5

/-- Type tags of `lua.h`. -/
def LUA_TNONE : Int := -1
def LUA_TNIL : Int := 0
def LUA_TBOOLEAN : Int := 1
def LUA_TLIGHTUSERDATA : Int := 2
def LUA_TNUMBER : Int := 3
def LUA_TSTRING : Int := 4
def LUA_TTABLE : Int := 5
def LUA_TFUNCTION : Int := 6
def LUA_TUSERDATA : Int := 7
def LUA_TTHREAD : Int := 8

/-- What an index designates: a stack position (absolute, counted from 1), a
pseudo-table, or nothing. -/
inductive Slot where
  | stack (pos : Nat)
  | pseudo (idx : Int)
  | invalid
  deriving DecidableEq, Repr

/-- Index resolution of the C API (`index2adr`) on a stack of height `top`:
a positive index is absolute, a negative index above `LUA_REGISTRYINDEX` is
relative to the top (`top + idx`, with -1 the top element), anything at or
below `LUA_REGISTRYINDEX` is a pseudo-index. -/
def index2adr (top : Nat) (idx : Int) : Slot :=
  if 0 < idx then
    if idx ≤ (top : Int) then .stack idx.toNat else .invalid
  else if LUA_REGISTRYINDEX < idx then
    if idx ≠ 0 ∧ 0 < (top : Int) + 1 + idx then .stack ((top : Int) + 1 + idx).toNat
    else .invalid
  else .pseudo idx

/-- Debug record `lua_Debug`, restricted to the fields written by
`lua_getinfo(L, "nSl", &ar)` that the wrapper reads; a null `name` is `none`. -/
structure lua_Debug where
  source : Bytes
  currentline : Int
  name : Option Bytes
  deriving DecidableEq, Repr

/-- The virtual machine as seen through the C API: everything the wrapper
delegates to it. A lookup answers `none` when the VM raises a Lua error
instead of returning. -/
structure Machine where
  /-- The value held by a pseudo-index (registry, environment, globals, upvalue). -/
  pseudo : Int → Value
  /-- The lookup `t[k]` of `lua_gettable`, metamethods included. -/
  index : Value → Value → Option Value
  /-- The lookup `t[k]` of `lua_rawget`. -/
  rawindex : Value → Value → Option Value
  /-- The call `lua_resume(L, nargs)`: status code and stack afterwards. -/
  resume : Stack → Int → Int × Stack
  /-- The call `lua_pcall(L, nargs, LUA_MULTRET, 0)`: status code and stack afterwards. -/
  pcall : Stack → Int → Int × Stack
  /-- Return value of `lua_getstack(L, level, &ar)`. -/
  getstack : Nat → Int
  /-- Return value of `lua_getinfo(L, "nSl", &ar)` after `lua_getstack` at that
  level filled `ar`, and the fields it wrote. -/
  getinfo : Nat → Int × lua_Debug

/-- The value an index designates, `none` when it designates nothing. -/
def valueAt (m : Machine) (st : Stack) (idx : Int) : Option Value :=
  match index2adr st.length idx with
  | .stack pos => st[pos - 1]?
  | .pseudo i => some (m.pseudo i)
  | .invalid => none

/-- The API function `lua_type`: the type tag, `LUA_TNONE` for a non-valid index. -/
def lua_type : Option Value → Int
  | none => LUA_TNONE
  | some .nil => LUA_TNIL
  | some (.boolean _) => LUA_TBOOLEAN
  | some (.lightuserdata _) => LUA_TLIGHTUSERDATA
  | some (.number _) => LUA_TNUMBER
  | some (.string _) => LUA_TSTRING
  | some (.table _) => LUA_TTABLE
  | some (.function _) => LUA_TFUNCTION
  | some (.userdata _) => LUA_TUSERDATA
  | some (.thread _) => LUA_TTHREAD

/-- The API function `lua_toboolean`: false for `nil`, `false` and a non-valid index. -/
def lua_toboolean : Option Value → Bool
  | none => false
  | some .nil => false
  | some (.boolean b) => b
  | some _ => true

/-- The API function `lua_tolstring`: pointer and length. The value must be a
string or a number; otherwise the pointer is null (`none`) and the length is
set to 0. `number2str` is the VM conversion of a number to a string. -/
def lua_tolstring (number2str : Nat → Bytes) : Option Value → Option Bytes × Nat
  | some (.string s) => (some s, s.length)
  | some (.number bits) => (some (number2str bits), (number2str bits).length)
  | _ => (none, 0)

/-- The API function `lua_tonumber` on a number: the `double` it holds, by bit
pattern. On anything else the answer is 0; the conversion of a numeric string
is left out, the wrapper only asks for the number of a value of type number. -/
def lua_tonumber : Option Value → Nat
  | some (.number bits) => bits
  | _ => 0

/-- The API function `lua_gettop`. -/
def lua_gettop (st : Stack) : Int := st.length

/-- The API macro `lua_pop(L, 1)`, that is `lua_settop(L, -2)`. -/
def lua_pop (st : Stack) : Stack := st.dropLast

/-- The API function `lua_pushstring` (and `lua_pushlstring`). -/
def lua_pushstring (st : Stack) (s : Bytes) : Stack := st ++ [.string s]

/-- The API macro `lua_pushcfunction`; a C function is identified by its address. -/
def lua_pushcfunction (st : Stack) (f : Nat) : Stack := st ++ [.function f]

/-- The API function `lua_gettable(L, idx)`: the key on top of the stack is
replaced by `t[k]`, t being the value at `idx`. -/
def lua_gettable (m : Machine) (st : Stack) (idx : Int) : Option Stack :=
  match valueAt m st idx, st.getLast? with
  | some t, some k => (m.index t k).map (fun v => st.dropLast ++ [v])
  | _, _ => none

/-- The API function `lua_rawget(L, idx)`: as `lua_gettable`, without metamethods. -/
def lua_rawget (m : Machine) (st : Stack) (idx : Int) : Option Stack :=
  match valueAt m st idx, st.getLast? with
  | some t, some k => (m.rawindex t k).map (fun v => st.dropLast ++ [v])
  | _, _ => none

/-- The store `t[key] = value` requested of the VM, t being what `target` designates. -/
structure Assignment where
  target : Slot
  key : Value
  value : Value
  deriving DecidableEq, Repr

/-- The API function `lua_settable(L, idx)`: the value is on top of the stack,
the key just below it, the table is what `idx` designates; both key and value
are popped. The result is the stack afterwards and the store performed. -/
def lua_settable (st : Stack) (idx : Int) : Option (Stack × Assignment) :=
  match index2adr st.length idx, st.dropLast.getLast?, st.getLast? with
  | .invalid, _, _ => none
  | slot, some k, some v => some (st.dropLast.dropLast, ⟨slot, k, v⟩)
  | _, _, _ => none

/-- The API function `lua_insert(L, idx)`: moves the top element into the
position `idx` designates, shifting up the elements above that position. -/
def lua_insert (st : Stack) (idx : Int) : Option Stack :=
  match index2adr st.length idx, st.getLast? with
  | .stack pos, some v => some (st.dropLast.take (pos - 1) ++ v :: st.dropLast.drop (pos - 1))
  | _, _ => none

/-! ## Accessors declared in `core/luawrapper.h`

The header is not part of the sources at hand. The methods below are the
inline accessors of the class that `luawrapper.cc` calls. -/

namespace Lua

/-- Modelled from the spec: `gettop` is declared in core/luawrapper.h, which is
missing; the wrapper being a 1:1 forwarding layer, it is `lua_gettop(L)`. -/
def gettop (st : Stack) : Int := lua_gettop st

/-- Modelled from the spec: `pop` is declared in core/luawrapper.h, which is
missing; called without argument it forwards to `lua_pop(L, 1)`. -/
def pop (st : Stack) : Stack := lua_pop st

/-- Modelled from the spec: `push` for a string is declared in
core/luawrapper.h, which is missing; it forwards to `lua_pushstring` or
`lua_pushlstring`. -/
def push (st : Stack) (s : Bytes) : Stack := lua_pushstring st s

/-- Modelled from the spec: `checkstack` is declared in core/luawrapper.h, which
is missing; it forwards to `lua_checkstack`, which reserves room and leaves
the elements of the stack as they are. -/
def checkstack (st : Stack) (_extra : Int) : Stack := st

/-- Modelled from the spec: `type` is declared in core/luawrapper.h, which is
missing; it forwards to `lua_type(L, i)`. -/
def type (m : Machine) (st : Stack) (i : Int) : Int := lua_type (valueAt m st i)

/-- Modelled from the spec: `istable` is declared in core/luawrapper.h, which is
missing; it forwards to `lua_istable(L, i)`. -/
def istable (m : Machine) (st : Stack) (i : Int) : Bool :=
  decide (lua_type (valueAt m st i) = LUA_TTABLE)

/-- Modelled from the spec: `isnil` is declared in core/luawrapper.h, which is
missing; it forwards to `lua_isnil(L, i)`. -/
def isnil (m : Machine) (st : Stack) (i : Int) : Bool :=
  decide (lua_type (valueAt m st i) = LUA_TNIL)

/-- Modelled from the spec: `isuserdata` is declared in core/luawrapper.h, which
is missing; it forwards to `lua_isuserdata(L, i)`, true for a full or a light
userdata, and its index defaults to -1 (the top of the stack). -/
def isuserdata (m : Machine) (st : Stack) (i : Int) : Bool :=
  decide (lua_type (valueAt m st i) = LUA_TUSERDATA) ||
    decide (lua_type (valueAt m st i) = LUA_TLIGHTUSERDATA)

/-- Modelled from the spec: `toboolean` is declared in core/luawrapper.h, which
is missing; it forwards to `lua_toboolean(L, i)`. -/
def toboolean (m : Machine) (st : Stack) (i : Int) : Bool := lua_toboolean (valueAt m st i)

/-- Modelled from the spec: `tonumber` is declared in core/luawrapper.h, which
is missing; it forwards to `lua_tonumber(L, i)`. -/
def tonumber (m : Machine) (st : Stack) (i : Int) : Nat := lua_tonumber (valueAt m st i)

/-! ## Methods of `luawrapper.cc` -/

/-- Field `L` of every wrapper object, by address of the object; `none` is the
null pointer, `some h` a VM handle. -/
abbrev Wrappers := Nat → Option Nat

/-- Result of a method guarded by `assert`: the state afterwards, or the
message of the failed assertion. -/
inductive Guarded where
  | done (w : Wrappers)
  | assertionFailed (what : String)

/-- Move assignment `Lua::operator=(Lua&& oL)` (lines 41-50): `self` is the
address of `*this`, `other` the address of `oL`. -/
def moveAssign (self other : Nat) (w : Wrappers) : Guarded :=
  if self = other then .done w
  else if (w self).isSome then .assertionFailed "Can't assign a Lua VM to another one."
  else
    let w1 := Function.update w self (w other)
    .done (Function.update w1 other none)

/-- The method `Lua::close` (lines 52-57). -/
def close (self : Nat) (w : Wrappers) : Guarded :=
  if (w self).isNone then .assertionFailed "Can't close an already closed VM"
  else .done (Function.update w self none)

/-- The loop `while (n < gettop()) pop();` shared by the library openers. The
first argument bounds the number of evaluations of the loop condition. -/
def restoreTop (n : Int) : Nat → Stack → Option Stack
  | 0, _ => none
  | fuel + 1, st => if n < gettop st then restoreTop n fuel (pop st) else some st

/-- The method `Lua::open_base` (lines 59-63); `luaopen_base` is the effect of the
VM library opener on the stack. -/
def open_base (luaopen_base : Stack → Stack) (fuel : Nat) (st : Stack) : Option Stack :=
  let n := gettop st
  restoreTop n fuel (luaopen_base st)

/-- The method `Lua::open_table` (lines 65-69). -/
def open_table (luaopen_table : Stack → Stack) (fuel : Nat) (st : Stack) : Option Stack :=
  let n := gettop st
  restoreTop n fuel (luaopen_table st)

/-- The method `Lua::open_string` (lines 71-75). -/
def open_string (luaopen_string : Stack → Stack) (fuel : Nat) (st : Stack) : Option Stack :=
  let n := gettop st
  restoreTop n fuel (luaopen_string st)

/-- The method `Lua::open_math` (lines 77-81). -/
def open_math (luaopen_math : Stack → Stack) (fuel : Nat) (st : Stack) : Option Stack :=
  let n := gettop st
  restoreTop n fuel (luaopen_math st)

/-- The method `Lua::open_debug` (lines 83-87). -/
def open_debug (luaopen_debug : Stack → Stack) (fuel : Nat) (st : Stack) : Option Stack :=
  let n := gettop st
  restoreTop n fuel (luaopen_debug st)

/-- The method `Lua::open_bit` (lines 89-93). -/
def open_bit (luaopen_bit : Stack → Stack) (fuel : Nat) (st : Stack) : Option Stack :=
  let n := gettop st
  restoreTop n fuel (luaopen_bit st)

/-- The method `Lua::open_jit` (lines 95-99). -/
def open_jit (luaopen_jit : Stack → Stack) (fuel : Nat) (st : Stack) : Option Stack :=
  let n := gettop st
  restoreTop n fuel (luaopen_jit st)

/-- The method `Lua::open_ffi` (lines 101-105). -/
def open_ffi (luaopen_ffi : Stack → Stack) (fuel : Nat) (st : Stack) : Option Stack :=
  let n := gettop st
  restoreTop n fuel (luaopen_ffi st)

/-- The index handed to `lua_settable` by `declareFunc` (line 117). -/
def declareFuncIndex (i : Int) : Int :=
  if i < 0 ∧ i > LUA_REGISTRYINDEX then i + 2 else i

/-- The method `Lua::declareFunc` (lines 113-119): the stack afterwards and the
store performed; `f` is the address of the native function. -/
def declareFunc (name : Bytes) (f : Nat) (i : Int) (st : Stack) : Option (Stack × Assignment) :=
  let st0 := checkstack st 2
  let st1 := lua_pushstring st0 name
  let st2 := lua_pushcfunction st1 f
  lua_settable st2 (declareFuncIndex i)

/-- The method `Lua::settable` (lines 169-175); the raw store and the store with
metamethods request the same assignment. -/
def settable (st : Stack) (i : Int) (raw : Bool) : Option (Stack × Assignment) :=
  if raw then lua_settable st i else lua_settable st i

/-- The method `Lua::gettable` (lines 177-183); `raw` defaults to false. -/
def gettable (m : Machine) (st : Stack) (i : Int) (raw : Bool) : Option Stack :=
  if raw then lua_rawget m st i else lua_gettable m st i

/-- One line of traceback, as built at lines 199-200 from the debug record. -/
def contextLine (ar : lua_Debug) : Bytes :=
  ascii "at " ++ ar.source ++ ascii ":" ++ decimal ar.currentline ++ ascii " (" ++
    (match ar.name with
     | some n => n
     | none => ascii "[top]") ++ ascii ")"

/-- The `do ... while (!got_error)` loop of `pushLuaContext`, from the given
level on. The first argument bounds the number of iterations. -/
def pushLuaContextLoop (m : Machine) : Nat → Nat → Stack → Option Stack
  | 0, _, _ => none
  | fuel + 1, level, st =>
    if m.getstack level = 1 then
      if (m.getinfo level).1 ≠ 0 then
        pushLuaContextLoop m fuel (level + 1) (push st (contextLine (m.getinfo level).2))
      else some st
    else some st

/-- The method `Lua::pushLuaContext` (lines 190-209): the loop started at level 0. -/
def pushLuaContext (m : Machine) (fuel : Nat) (st : Stack) : Option Stack :=
  pushLuaContextLoop m fuel 0 st

/-- How a method that may throw ends: normal return, or `std::runtime_error`
with the given message. -/
inductive Outcome where
  | returned
  | threw (what : Bytes)
  deriving DecidableEq, Repr

/-- Lines 122-125 of `Lua::call`: the stack handed to `lua_resume`. -/
def callSetup (m : Machine) (f : Bytes) (i nargs : Int) (st : Stack) : Option Stack :=
  let st0 := checkstack st 1
  let st1 := lua_pushstring st0 f
  match lua_gettable m st1 i with
  | none => none
  | some st2 => lua_insert st2 (-1 - nargs)

/-- The method `Lua::call` (lines 121-145): how it ends and the stack it leaves.
`none` when the VM raises an error before `lua_resume` or the traceback loop is
still running after `fuel` iterations. -/
def call (m : Machine) (fuel : Nat) (f : Bytes) (i nargs : Int) (st : Stack) :
    Option (Outcome × Stack) :=
  match callSetup m f i nargs st with
  | none => none
  | some st1 =>
    let r := (m.resume st1 nargs).1
    let st2 := (m.resume st1 nargs).2
    if r = LUA_YIELD ∨ r = 0 then some (.returned, st2)
    else
      match pushLuaContext m fuel st2 with
      | none => none
      | some st3 =>
        if r = LUA_ERRRUN then
          some (.threw (ascii "Runtime error while running LUA code."), st3)
        else if r = LUA_ERRMEM then
          some (.threw (ascii "Memory allocation error while running LUA code."), st3)
        else if r = LUA_ERRERR then
          some (.threw (ascii "Error in Error function."), st3)
        else if r = LUA_ERRSYNTAX then
          some (.threw (ascii "Syntax error in Lua code."), st3)
        else
          some (.threw (ascii "Unknow error while running LUA code (err code: " ++
            decimal r ++ ascii ")"), st3)

/-- The method `Lua::pcall` (lines 147-167): how it ends and the stack it leaves.
`none` when the traceback loop is still running after `fuel` iterations. -/
def pcall (m : Machine) (fuel : Nat) (nargs : Int) (st : Stack) : Option (Outcome × Stack) :=
  let r := (m.pcall st nargs).1
  let st1 := (m.pcall st nargs).2
  if r = 0 then some (.returned, st1)
  else
    match pushLuaContext m fuel st1 with
    | none => none
    | some st2 =>
      if r = LUA_ERRRUN then
        some (.threw (ascii "Runtime error while running LUA code."), st2)
      else if r = LUA_ERRMEM then
        some (.threw (ascii "Memory allocation error while running LUA code."), st2)
      else if r = LUA_ERRERR then
        some (.threw (ascii "Error in Error function."), st2)
      else if r = LUA_ERRSYNTAX then
        some (.threw (ascii "Syntax error in Lua code."), st2)
      else
        some (.threw (ascii "Unknow error while running LUA code (err code: " ++
          decimal r ++ ascii ")"), st2)

/-- The method `Lua::isobject` (lines 223-234): the result and the stack
afterwards; `none` when the lookup raises a Lua error. -/
def isobject (m : Machine) (st : Stack) (i : Int) : Option (Bool × Stack) :=
  if istable m st i then
    let st1 := push st (ascii "__obj")
    match gettable m st1 i false with
    | none => none
    | some st2 =>
      let r := isuserdata m st2 (-1)
      some (r, pop st2)
  else some (isnil m st i, st)

/-- The constructor `std::string(r, l)` of line 247: the `l` bytes at `r`. A
null pointer comes from `lua_tolstring` with the length 0 only, and the string
built from it is the empty string. -/
def stdString : Option Bytes → Nat → Bytes
  | some r, l => r.take l
  | none, _ => []

/-- The `switch` of `Lua::tostring` (lines 237-249): the string returned by the
case taken, `none` when control leaves the switch without returning.
`to_string` is `std::to_string` applied to the `double` read by `tonumber`,
`number2str` the VM conversion used by `lua_tolstring`. -/
def tostringSwitch (m : Machine) (to_string number2str : Nat → Bytes) (st : Stack) (i : Int) :
    Option Bytes :=
  if type m st i = LUA_TNIL then some (ascii "(nil)")
  else if type m st i = LUA_TBOOLEAN then
    some (if toboolean m st i then ascii "true" else ascii "false")
  else if type m st i = LUA_TNUMBER then some (to_string (tonumber m st i))
  else
    some (stdString (lua_tolstring number2str (valueAt m st i)).1
      (lua_tolstring number2str (valueAt m st i)).2)

/-- The method `Lua::tostring` (lines 236-251): what the switch returns, and
the literal of line 250 when control leaves the switch. -/
def tostring (m : Machine) (to_string number2str : Nat → Bytes) (st : Stack) (i : Int) :
    Bytes :=
  match tostringSwitch m to_string number2str st i with
  | some s => s
  | none => ascii "<lua-NULL>"

/-! ## Sample machines and stacks, used to instantiate the results below -/

/-- A small machine: every pseudo-index holds table 0, table 0 maps every
key to function 1, table 1 maps the key `__obj` to userdata 5, every other
lookup answers `nil`; running code ends with the given status and pushes an
error message; the call stack has two levels, a Lua function and the main
chunk. -/
def sampleMachine (status : Int) : Machine where
  pseudo := fun _ => .table 0
  index := fun t k =>
    if t = .table 0 then some (.function 1)
    else if t = .table 1 ∧ k = .string (ascii "__obj") then some (.userdata 5)
    else some .nil
  rawindex := fun t k =>
    if t = .table 0 then some (.function 1)
    else if t = .table 1 ∧ k = .string (ascii "__obj") then some (.userdata 5)
    else some .nil
  resume := fun st _ => (status, st ++ [.string (ascii "oops")])
  pcall := fun st _ => (status, st ++ [.string (ascii "oops")])
  getstack := fun level => if level < 2 then 1 else 0
  getinfo := fun level =>
    if level = 0 then (1, ⟨ascii "@a.lua", 3, some (ascii "f")⟩)
    else (1, ⟨ascii "@a.lua", 9, none⟩)

/-- A conversion of numbers to text that answers one digit, standing for
`std::to_string` and for the VM conversion. -/
def sampleNumberText (_bits : Nat) : Bytes := ascii "0"

/-- A library opener that pushes two values. -/
def sampleOpener (st : Stack) : Stack := st ++ [.table 2, .table 3]

/-- Three wrapper objects: the one at address 1 holds VM 7, the one at address 2
holds VM 8, every other holds none. -/
def sampleWrappers : Wrappers := fun a => if a = 1 then some 7 else if a = 2 then some 8 else none

end Lua

/-! ## Escaping strings -/

namespace Lua

theorem escapeStep_append (r : Bytes) (c : Byte) : escapeStep r c = r ++ escapeStep [] c := by
  unfold escapeStep
  split_ifs <;> simp

theorem foldl_escapeStep (s : Bytes) (r : Bytes) :
    s.foldl escapeStep r = r ++ s.foldl escapeStep [] := by
  induction s generalizing r with
  | nil => simp
  | cons c s ih =>
    simp only [List.foldl_cons]
    rw [ih (escapeStep r c), ih (escapeStep [] c), escapeStep_append r c, List.append_assoc]

theorem escapeString_nil : escapeString [] = [] := rfl

theorem escapeString_cons (c : Byte) (s : Bytes) :
    escapeString (c :: s) = escapeStep [] c ++ escapeString s := by
  unfold escapeString
  rw [List.foldl_cons, foldl_escapeStep]

theorem escapeStep_length_pos (c : Byte) : 0 < (escapeStep [] c).length := by
  unfold escapeStep
  split_ifs <;> simp

theorem readEscape_zero (rest : Bytes) : readEscape (48 :: 48 :: 48 :: rest) = some (0, rest) := by
  cases rest <;> rfl

/-- Reading the escaped form of one byte takes one step of the reader and
decodes that byte. -/
theorem readLuaBody_escapeStep (c : Byte) (rest acc : Bytes) (budget : Nat) :
    readLuaBody (budget + 1) (escapeStep [] c ++ rest) acc = readLuaBody budget rest (c :: acc) := by
  by_cases h34 : c = 34
  · subst h34; simp [escapeStep, readLuaBody, readEscape]
  by_cases h92 : c = 92
  · subst h92; simp [escapeStep, readLuaBody, readEscape]
  by_cases h10 : c = 10
  · subst h10; simp [escapeStep, readLuaBody, readEscape]
  by_cases h13 : c = 13
  · subst h13; simp [escapeStep, readLuaBody, readEscape]
  by_cases h0 : c = 0
  · subst h0
    have hstep : escapeStep [] (0 : Byte) ++ rest = 92 :: 48 :: 48 :: 48 :: rest := rfl
    rw [hstep, readLuaBody]
    simp [readEscape_zero]
  · simp [escapeStep, readLuaBody, h34, h92, h10, h13, h0]

/-- The reader, started anywhere in front of an escaped string followed by a
closing quote, decodes the string and stops right after that quote. -/
theorem readLuaBody_escapeString (s : Bytes) :
    ∀ (acc tail : Bytes) (budget : Nat), (escapeString s).length < budget →
      readLuaBody budget (escapeString s ++ 34 :: tail) acc = some (acc.reverse ++ s, tail) := by
  induction s with
  | nil =>
    intro acc tail budget h
    obtain ⟨b, rfl⟩ : ∃ b, budget = b + 1 := ⟨budget - 1, by omega⟩
    simp [escapeString_nil, readLuaBody]
  | cons c s ih =>
    intro acc tail budget h
    rw [escapeString_cons] at h ⊢
    have hpos := escapeStep_length_pos c
    rw [List.length_append] at h
    obtain ⟨b, rfl⟩ : ∃ b, budget = b + 1 := ⟨budget - 1, by omega⟩
    rw [List.append_assoc, readLuaBody_escapeStep, ih (c :: acc) tail b (by omega)]
    simp

theorem hasBareQuote_escaped (e : Byte) (rest : Bytes) :
    hasBareQuote (92 :: e :: rest) = hasBareQuote rest := by
  rw [hasBareQuote]; simp

theorem hasBareQuote_plain (c : Byte) (rest : Bytes) (h92 : c ≠ 92) (h34 : c ≠ 34) :
    hasBareQuote (c :: rest) = hasBareQuote rest := by
  conv_lhs => rw [hasBareQuote.eq_def]
  simp [h92, h34]

theorem hasBareQuote_escapeStep (c : Byte) (rest : Bytes) :
    hasBareQuote (escapeStep [] c ++ rest) = hasBareQuote rest := by
  by_cases h34 : c = 34
  · subst h34; exact hasBareQuote_escaped 34 rest
  by_cases h92 : c = 92
  · subst h92; exact hasBareQuote_escaped 92 rest
  by_cases h10 : c = 10
  · subst h10; exact hasBareQuote_escaped 110 rest
  by_cases h13 : c = 13
  · subst h13; exact hasBareQuote_escaped 114 rest
  by_cases h0 : c = 0
  · subst h0
    have hstep : escapeStep [] (0 : Byte) ++ rest = 92 :: 48 :: 48 :: 48 :: rest := rfl
    rw [hstep, hasBareQuote_escaped, hasBareQuote_plain 48 _ (by decide) (by decide),
      hasBareQuote_plain 48 _ (by decide) (by decide)]
  · have hstep : escapeStep [] c ++ rest = c :: rest := by
      simp [escapeStep, h34, h92, h10, h13, h0]
    rw [hstep, hasBareQuote_plain c rest h92 h34]

theorem escapeStep_clean (c b : Byte) (hb : b ∈ escapeStep [] c) : b ≠ 10 ∧ b ≠ 13 ∧ b ≠ 0 := by
  by_cases h34 : c = 34
  · subst h34
    have hstep : escapeStep [] (34 : Byte) = [92, 34] := rfl
    rw [hstep] at hb; simp at hb
    rcases hb with rfl | rfl <;> decide
  by_cases h92 : c = 92
  · subst h92
    have hstep : escapeStep [] (92 : Byte) = [92, 92] := rfl
    rw [hstep] at hb; simp at hb
    subst hb; decide
  by_cases h10 : c = 10
  · subst h10
    have hstep : escapeStep [] (10 : Byte) = [92, 110] := rfl
    rw [hstep] at hb; simp at hb
    rcases hb with rfl | rfl <;> decide
  by_cases h13 : c = 13
  · subst h13
    have hstep : escapeStep [] (13 : Byte) = [92, 114] := rfl
    rw [hstep] at hb; simp at hb
    rcases hb with rfl | rfl <;> decide
  by_cases h0 : c = 0
  · subst h0
    have hstep : escapeStep [] (0 : Byte) = [92, 48, 48, 48] := rfl
    rw [hstep] at hb; simp at hb
    rcases hb with rfl | rfl <;> decide
  · have hstep : escapeStep [] c = [c] := by
      simp [escapeStep, h34, h92, h10, h13, h0]
    rw [hstep] at hb; simp at hb
    subst hb; exact ⟨h10, h13, h0⟩

theorem escapeString_readLuaString (s : Bytes) :
    readLuaString (34 :: escapeString s ++ [34]) = some (s, []) := by
  have h := readLuaBody_escapeString s [] [] ((escapeString s ++ [34]).length + 1)
    (by simp; omega)
  simpa [readLuaString] using h

/-- C7. The text `escapeString s` between double quotes, read as a Lua
double-quoted literal, is consumed entirely and decodes to `s`, for every byte
string `s` (NUL bytes included). Hence `escapeString` is injective, its output
holds no LF, CR or NUL byte, and no double quote of its output is in
unescaped position. -/
theorem escapeString_decodes_back (s : Bytes) :
    readLuaString ([34] ++ escapeString s ++ [34]) = some (s, []) ∧
    (∀ t : Bytes, escapeString t = escapeString s → t = s) ∧
    (∀ b ∈ escapeString s, b ≠ 10 ∧ b ≠ 13 ∧ b ≠ 0) ∧
    hasBareQuote (escapeString s) = false := by
  refine ⟨escapeString_readLuaString s, ?_, ?_, ?_⟩
  · intro t ht
    have h1 := escapeString_readLuaString t
    have h2 := escapeString_readLuaString s
    rw [ht, h2] at h1
    simpa using h1.symm
  · induction s with
    | nil => simp [escapeString_nil]
    | cons c s ih =>
      intro b hb
      rw [escapeString_cons, List.mem_append] at hb
      rcases hb with hb | hb
      · exact escapeStep_clean c b hb
      · exact ih b hb
  · induction s with
    | nil => simp [escapeString_nil, hasBareQuote]
    | cons c s ih => rw [escapeString_cons, hasBareQuote_escapeStep, ih]

/-! ## Library openers -/

theorem restoreTop_take (k : Nat) :
    ∀ (fuel : Nat) (st : Stack), st.length - k < fuel →
      restoreTop (k : Int) fuel st = some (st.take k) := by
  intro fuel
  induction fuel with
  | zero => intro st h; omega
  | succ fuel ih =>
    intro st h
    unfold restoreTop
    by_cases hlt : (k : Int) < gettop st
    · have hk : k < st.length := by
        simpa [gettop, lua_gettop] using hlt
      rw [if_pos hlt, ih (pop st) (by simp [pop, lua_pop]; omega)]
      simp only [pop, lua_pop, List.dropLast_eq_take]
      rw [List.take_take, Nat.min_eq_left (by omega)]
    · have hk : st.length ≤ k := by
        simpa [gettop, lua_gettop] using hlt
      rw [if_neg hlt, List.take_of_length_le hk]

theorem restoreTop_opener (luaopen : Stack → Stack) (st : Stack) (fuel : Nat)
    (hfuel : (luaopen st).length - st.length < fuel) :
    ∃ out, restoreTop (gettop st) fuel (luaopen st) = some out ∧
      out.length = min st.length (luaopen st).length ∧
      (∀ pushed, luaopen st = st ++ pushed → out = st) := by
  refine ⟨(luaopen st).take st.length, restoreTop_take st.length fuel (luaopen st) hfuel, ?_, ?_⟩
  · simp
  · intro pushed hp
    rw [hp]; simp

/-- C10. Each library opener restores the stack: with height n at entry and
height m after the underlying `luaopen_*` call, the popping loop ends (any
bound above m - n on its iterations is enough) and the height at exit is
min(n, m); when the call only pushed values, the stack at exit is the stack at
entry. -/
theorem openers_restore_stack (luaopen : Stack → Stack) (st : Stack) (fuel : Nat)
    (hfuel : (luaopen st).length - st.length < fuel) :
    ∀ opener ∈ [open_base, open_table, open_string, open_math, open_debug, open_bit,
        open_jit, open_ffi],
      ∃ out, opener luaopen fuel st = some out ∧
        out.length = min st.length (luaopen st).length ∧
        (∀ pushed, luaopen st = st ++ pushed → out = st) := by
  intro opener hmem
  simp only [List.mem_cons, List.mem_singleton, List.not_mem_nil, or_false] at hmem
  rcases hmem with h | h | h | h | h | h | h | h <;> subst h <;>
    exact restoreTop_opener luaopen st fuel hfuel

/-- The openers on a stack of one element, with an opener that pushes two
tables and a bound of three iterations. -/
theorem openers_restore_stack_witness :
    (sampleOpener [Value.nil]).length - [Value.nil].length < 3 ∧
    ∀ opener ∈ [open_base, open_table, open_string, open_math, open_debug, open_bit,
        open_jit, open_ffi],
      ∃ out, opener sampleOpener 3 [Value.nil] = some out ∧
        out.length = min [Value.nil].length (sampleOpener [Value.nil]).length ∧
        (∀ pushed, sampleOpener [Value.nil] = [Value.nil] ++ pushed → out = [Value.nil]) :=
  ⟨by decide, openers_restore_stack sampleOpener [Value.nil] 3 (by decide)⟩

/-! ## Move assignment -/

/-- C5. Move assignment transfers the VM handle: between two distinct wrappers
whose target holds no VM, the target ends with the handle of the source, the
source with none, and no other wrapper changes; self-assignment leaves all
wrappers as they are; the assertion fails exactly when the wrappers are
distinct and the target already holds a VM, with the message of line 44. -/
theorem moveAssign_transfers_handle (w : Wrappers) (a b : Nat) :
    (a ≠ b → w a = none →
      ∃ w2, moveAssign a b w = .done w2 ∧ w2 a = w b ∧ w2 b = none ∧
        ∀ c, c ≠ a → c ≠ b → w2 c = w c) ∧
    moveAssign a a w = .done w ∧
    ((∃ what, moveAssign a b w = .assertionFailed what) ↔ (a ≠ b ∧ (w a).isSome = true)) ∧
    (∀ what, moveAssign a b w = .assertionFailed what →
      what = "Can't assign a Lua VM to another one.") := by
  refine ⟨?_, ?_, ?_, ?_⟩
  · intro hab ha
    refine ⟨Function.update (Function.update w a (w b)) b none, ?_, ?_, ?_, ?_⟩
    · simp [moveAssign, hab, ha]
    · simp [Function.update, hab]
    · simp [Function.update]
    · intro c hca hcb
      simp [Function.update, hca, hcb]
  · simp [moveAssign]
  · unfold moveAssign
    by_cases hab : a = b
    · simp [hab]
    · by_cases hs : (w a).isSome = true
      · simp [hab, hs]
      · simp [hab, hs]
  · intro what h
    unfold moveAssign at h
    split_ifs at h
    simpa using h.symm

/-! ## Traceback -/

theorem range_succ_map_shift (f : Nat → Value) (level j : Nat) :
    (List.range (j + 1)).map (fun d => f (level + d)) =
      f level :: (List.range j).map (fun d => f (level + 1 + d)) := by
  rw [List.range_succ_eq_map, List.map_cons, List.map_map]
  simp only [Nat.add_zero, List.cons.injEq, true_and]
  apply List.map_congr_left
  intro d _
  simp only [Function.comp, Nat.succ_eq_add_one]
  congr 1; omega

theorem pushLuaContextLoop_pushes (m : Machine) (k : Nat)
    (hk : m.getstack k ≠ 1 ∨ (m.getinfo k).1 = 0) :
    ∀ (j level : Nat) (st : Stack) (fuel : Nat), level + j = k →
      (∀ l, level ≤ l → l < k → m.getstack l = 1 ∧ (m.getinfo l).1 ≠ 0) → j < fuel →
      pushLuaContextLoop m fuel level st =
        some (st ++ (List.range j).map
          (fun d => Value.string (contextLine (m.getinfo (level + d)).2))) := by
  intro j
  induction j with
  | zero =>
    intro level st fuel hl _ hfuel
    obtain ⟨g, rfl⟩ : ∃ g, fuel = g + 1 := ⟨fuel - 1, by omega⟩
    have hlk : level = k := by omega
    subst hlk
    unfold pushLuaContextLoop
    rcases hk with hk | hk
    · simp [hk]
    · simp [hk]
  | succ j ih =>
    intro level st fuel hl hlow hfuel
    obtain ⟨g, rfl⟩ : ∃ g, fuel = g + 1 := ⟨fuel - 1, by omega⟩
    have hok := hlow level (Nat.le_refl _) (by omega)
    unfold pushLuaContextLoop
    rw [if_pos hok.1, if_pos hok.2,
      ih (level + 1) _ g (by omega) (fun l h1 h2 => hlow l (by omega) h2) (by omega),
      range_succ_map_shift (fun l => Value.string (contextLine (m.getinfo l).2)) level j]
    simp [push, lua_pushstring]

theorem pushLuaContextLoop_ends (m : Machine) (k : Nat)
    (hk : m.getstack k ≠ 1 ∨ (m.getinfo k).1 = 0) :
    ∀ (j level : Nat) (st : Stack) (fuel : Nat), level + j = k → j < fuel →
      ∃ out, pushLuaContextLoop m fuel level st = some out := by
  intro j
  induction j with
  | zero =>
    intro level st fuel hl hfuel
    obtain ⟨g, rfl⟩ : ∃ g, fuel = g + 1 := ⟨fuel - 1, by omega⟩
    have hlk : level = k := by omega
    subst hlk
    unfold pushLuaContextLoop
    rcases hk with hk | hk
    · simp [hk]
    · simp [hk]
  | succ j ih =>
    intro level st fuel hl hfuel
    obtain ⟨g, rfl⟩ : ∃ g, fuel = g + 1 := ⟨fuel - 1, by omega⟩
    unfold pushLuaContextLoop
    split_ifs
    · exact ih (level + 1) _ g (by omega) (by omega)
    · exact ⟨st, rfl⟩
    · exact ⟨st, rfl⟩

theorem pushLuaContext_ends (m : Machine) (k fuel : Nat) (st : Stack)
    (hk : m.getstack k ≠ 1 ∨ (m.getinfo k).1 = 0) (hfuel : k < fuel) :
    ∃ out, pushLuaContext m fuel st = some out :=
  pushLuaContextLoop_ends m k hk k 0 st fuel (by omega) hfuel

/-- C6. With k the lowest level at which `lua_getstack` does not return 1 or
`lua_getinfo` returns 0, `pushLuaContext` ends (any bound above k on its
iterations is enough) and leaves the stack it found followed by exactly k
strings, for the levels 0 to k-1 in that order, the string of a level being
"at " source ":" decimal(currentline) " (" n ")" with n the name of the
function at that level, or "[top]" when it has none. -/
theorem pushLuaContext_pushes_levels (m : Machine) (k fuel : Nat) (st : Stack)
    (hlow : ∀ l, l < k → m.getstack l = 1 ∧ (m.getinfo l).1 ≠ 0)
    (hk : m.getstack k ≠ 1 ∨ (m.getinfo k).1 = 0) (hfuel : k < fuel) :
    pushLuaContext m fuel st =
      some (st ++ (List.range k).map (fun l =>
        Value.string (ascii "at " ++ (m.getinfo l).2.source ++ ascii ":" ++
          decimal (m.getinfo l).2.currentline ++ ascii " (" ++
          ((m.getinfo l).2.name.getD (ascii "[top]")) ++ ascii ")"))) := by
  have h := pushLuaContextLoop_pushes m k hk k 0 st fuel (by omega)
    (fun l _ h2 => hlow l h2) hfuel
  unfold pushLuaContext
  rw [h]
  congr 2
  apply List.map_congr_left
  intro l _
  simp only [Nat.zero_add, contextLine]
  cases (m.getinfo l).2.name <;> rfl

/-- The traceback of the sample machine, whose call stack has two levels. -/
theorem pushLuaContext_pushes_levels_witness :
    (∀ l, l < 2 → (sampleMachine 2).getstack l = 1 ∧ ((sampleMachine 2).getinfo l).1 ≠ 0) ∧
    ((sampleMachine 2).getstack 2 ≠ 1 ∨ ((sampleMachine 2).getinfo 2).1 = 0) ∧
    pushLuaContext (sampleMachine 2) 3 [Value.nil] =
      some ([Value.nil] ++ (List.range 2).map (fun l =>
        Value.string (ascii "at " ++ ((sampleMachine 2).getinfo l).2.source ++ ascii ":" ++
          decimal ((sampleMachine 2).getinfo l).2.currentline ++ ascii " (" ++
          (((sampleMachine 2).getinfo l).2.name.getD (ascii "[top]")) ++ ascii ")"))) :=
  ⟨by decide, by decide,
    pushLuaContext_pushes_levels (sampleMachine 2) 2 3 [Value.nil] (by decide) (by decide)
      (by decide)⟩

/-! ## Calling script functions -/

theorem callSetup_stack (m : Machine) (f : Bytes) (i nargs : Int) (st : Stack) (t v : Value)
    (hn0 : 0 ≤ nargs) (hn : nargs ≤ st.length) (hmax : st.length ≤ LUAI_MAXCSTACK)
    (ht : valueAt m (st ++ [Value.string f]) i = some t)
    (hv : m.index t (Value.string f) = some v) :
    callSetup m f i nargs st =
      some (st.take (st.length - nargs.toNat) ++ v :: st.drop (st.length - nargs.toNat)) := by
  have hmax2 : st.length ≤ 8000 := hmax
  have hidx : index2adr (st ++ [v]).length (-1 - nargs) =
      Slot.stack (st.length - nargs.toNat + 1) := by
    unfold index2adr LUA_REGISTRYINDEX
    rw [if_neg (by omega), if_pos (by omega)]
    simp only [List.length_append, List.length_singleton]
    rw [if_pos (by constructor <;> omega)]
    congr 1
    omega
  simp only [callSetup, checkstack, lua_pushstring, lua_gettable, ht, List.getLast?_concat,
    hv, Option.map_some', List.dropLast_concat, lua_insert, hidx, Nat.add_sub_cancel]

/-- C4. For a stack of height h (within the limit of the C API) and
0 ≤ nargs ≤ h, when the lookup of the callee under key f answers v, the stack
handed to `lua_resume` by `call` has height h + 1 and reads: the h - nargs
bottom elements unchanged, then v, then the top nargs elements of the entry
stack in their original order. -/
theorem call_places_callee_below_arguments (m : Machine) (f : Bytes) (i nargs : Int)
    (st : Stack) (t v : Value)
    (hn0 : 0 ≤ nargs) (hn : nargs ≤ st.length) (hmax : st.length ≤ LUAI_MAXCSTACK)
    (ht : valueAt m (lua_pushstring st f) i = some t)
    (hv : m.index t (Value.string f) = some v) :
    ∃ out, callSetup m f i nargs st = some out ∧
      out.length = st.length + 1 ∧
      out = st.take (st.length - nargs.toNat) ++ [v] ++ st.drop (st.length - nargs.toNat) ∧
      out.take (st.length - nargs.toNat) = st.take (st.length - nargs.toNat) ∧
      out[st.length - nargs.toNat]? = some v ∧
      out.drop (st.length - nargs.toNat + 1) = st.drop (st.length - nargs.toNat) ∧
      (st.drop (st.length - nargs.toNat)).length = nargs.toNat := by
  have hlen : (st.take (st.length - nargs.toNat)).length = st.length - nargs.toNat := by
    simp
  refine ⟨_, callSetup_stack m f i nargs st t v hn0 hn hmax ht hv, ?_, ?_, ?_, ?_, ?_, ?_⟩
  · simp only [List.length_append, List.length_cons, List.length_take, List.length_drop]
    omega
  · simp
  · rw [List.take_append_eq_append_take]
    simp
  · rw [List.getElem?_append_right (by simp)]
    simp
  · rw [List.drop_append_eq_append_drop]
    simp
  · simp only [List.length_drop]
    omega

/-- A call with two arguments on a stack of three elements, the callee looked
up in the globals table. -/
theorem call_places_callee_below_arguments_witness :
    (0 : Int) ≤ 2 ∧ (2 : Int) ≤ [Value.nil, Value.number 1, Value.number 2].length ∧
    ∃ out, callSetup (sampleMachine 0) (ascii "f") LUA_GLOBALSINDEX 2
        [Value.nil, Value.number 1, Value.number 2] = some out ∧
      out.length = 3 + 1 ∧
      out = [Value.nil, Value.function 1, Value.number 1, Value.number 2] := by
  refine ⟨by decide, by decide, ?_⟩
  obtain ⟨out, h1, h2, h3, _⟩ :=
    call_places_callee_below_arguments (sampleMachine 0) (ascii "f") LUA_GLOBALSINDEX 2
      [Value.nil, Value.number 1, Value.number 2] (Value.table 0) (Value.function 1)
      (by decide) (by decide) (by decide) (by decide) (by decide)
  exact ⟨out, h1, h2, h3⟩

/-- C1. For the status code r returned by `lua_resume` inside `call` (the
traceback loop meeting an end of the call stack): `call` returns normally if
and only if r = 0 or r = LUA_YIELD; for r = LUA_ERRRUN, LUA_ERRSYNTAX,
LUA_ERRMEM, LUA_ERRERR it throws with the fixed message of that code, and for
every other r, negative ones included, with the message
"Unknow error while running LUA code (err code: " decimal(r) ")". -/
theorem call_translates_status (m : Machine) (fuel k : Nat) (f : Bytes) (i nargs : Int)
    (st st1 : Stack) (r : Int)
    (hsetup : callSetup m f i nargs st = some st1)
    (hr : (m.resume st1 nargs).1 = r)
    (hk : m.getstack k ≠ 1 ∨ (m.getinfo k).1 = 0) (hfuel : k < fuel) :
    ∃ out st2, call m fuel f i nargs st = some (out, st2) ∧
      (out = Outcome.returned ↔ (r = 0 ∨ r = 1)) ∧
      (r = 2 → out = Outcome.threw (ascii "Runtime error while running LUA code.")) ∧
      (r = 3 → out = Outcome.threw (ascii "Syntax error in Lua code.")) ∧
      (r = 4 → out = Outcome.threw (ascii "Memory allocation error while running LUA code.")) ∧
      (r = 5 → out = Outcome.threw (ascii "Error in Error function.")) ∧
      ((r < 0 ∨ 5 < r) → out = Outcome.threw
        (ascii "Unknow error while running LUA code (err code: " ++ decimal r ++ ascii ")")) := by
  obtain ⟨st3, hctx⟩ := pushLuaContext_ends m k fuel (m.resume st1 nargs).2 hk hfuel
  simp only [call, hsetup, hr, hctx, LUA_YIELD, LUA_ERRRUN, LUA_ERRMEM, LUA_ERRERR,
    LUA_ERRSYNTAX]
  by_cases h0 : r = 0
  · subst h0
    exact ⟨Outcome.returned, (m.resume st1 nargs).2, by simp, by simp⟩
  by_cases h1 : r = 1
  · subst h1
    exact ⟨Outcome.returned, (m.resume st1 nargs).2, by simp, by simp⟩
  by_cases h2 : r = 2
  · subst h2
    exact ⟨Outcome.threw (ascii "Runtime error while running LUA code."), st3, by simp, by simp⟩
  by_cases h3 : r = 3
  · subst h3
    exact ⟨Outcome.threw (ascii "Syntax error in Lua code."), st3, by simp, by simp⟩
  by_cases h4 : r = 4
  · subst h4
    exact ⟨Outcome.threw (ascii "Memory allocation error while running LUA code."), st3,
      by simp, by simp⟩
  by_cases h5 : r = 5
  · subst h5
    exact ⟨Outcome.threw (ascii "Error in Error function."), st3, by simp, by simp⟩
  · exact ⟨Outcome.threw
        (ascii "Unknow error while running LUA code (err code: " ++ decimal r ++ ascii ")"),
      st3, by simp [h0, h1, h2, h3, h4, h5], by simp [h0, h1, h2, h3, h4, h5]⟩

/-- A call on the sample machine whose `lua_resume` answers the status -7. -/
theorem call_translates_status_witness :
    callSetup (sampleMachine (-7)) (ascii "f") LUA_GLOBALSINDEX 0 [] =
      some [Value.function 1] ∧
    ((sampleMachine (-7)).resume [Value.function 1] 0).1 = -7 ∧
    ∃ out st2, call (sampleMachine (-7)) 3 (ascii "f") LUA_GLOBALSINDEX 0 [] = some (out, st2) ∧
      out = Outcome.threw (ascii "Unknow error while running LUA code (err code: -7)") := by
  refine ⟨by decide, by decide, ?_⟩
  obtain ⟨out, st2, hc, _, _, _, _, _, hother⟩ :=
    call_translates_status (sampleMachine (-7)) 3 2 (ascii "f") LUA_GLOBALSINDEX 0 []
      [Value.function 1] (-7) (by decide) (by decide) (by decide) (by decide)
  exact ⟨out, st2, hc, by rw [hother (by decide)]; decide⟩

/-- C2, as amended. For every status code r other than LUA_YIELD, `pcall`
ends as `call` ends on the same r: both return normally, or both throw with
the same message. `pcall` returns normally exactly when r = 0. On
r = LUA_YIELD `call` returns normally and `pcall` throws the message of an
unknown code. -/
theorem pcall_translates_like_call_except_yield (m : Machine) (fuel k : Nat) (f : Bytes)
    (i nargs : Int) (st st1 stp : Stack) (r : Int)
    (hsetup : callSetup m f i nargs st = some st1)
    (hr : (m.resume st1 nargs).1 = r) (hp : (m.pcall stp nargs).1 = r)
    (hk : m.getstack k ≠ 1 ∨ (m.getinfo k).1 = 0) (hfuel : k < fuel) :
    ∃ oc sc op sp, call m fuel f i nargs st = some (oc, sc) ∧
      pcall m fuel nargs stp = some (op, sp) ∧
      (r ≠ LUA_YIELD → op = oc) ∧
      (op = Outcome.returned ↔ r = 0) ∧
      (r = LUA_YIELD → oc = Outcome.returned ∧ op = Outcome.threw
        (ascii "Unknow error while running LUA code (err code: " ++ decimal 1 ++ ascii ")")) := by
  obtain ⟨sc3, hc3⟩ := pushLuaContext_ends m k fuel (m.resume st1 nargs).2 hk hfuel
  obtain ⟨sp3, hp3⟩ := pushLuaContext_ends m k fuel (m.pcall stp nargs).2 hk hfuel
  simp only [call, pcall, hsetup, hr, hp, hc3, hp3, LUA_YIELD, LUA_ERRRUN, LUA_ERRMEM,
    LUA_ERRERR, LUA_ERRSYNTAX]
  by_cases h0 : r = 0
  · subst h0
    exact ⟨Outcome.returned, (m.resume st1 nargs).2, Outcome.returned, (m.pcall stp nargs).2,
      by simp, by simp, by simp⟩
  by_cases h1 : r = 1
  · subst h1
    exact ⟨Outcome.returned, (m.resume st1 nargs).2, Outcome.threw
        (ascii "Unknow error while running LUA code (err code: " ++ decimal 1 ++ ascii ")"),
      sp3, by simp, by simp, by simp⟩
  by_cases h2 : r = 2
  · subst h2
    exact ⟨Outcome.threw (ascii "Runtime error while running LUA code."), sc3,
      Outcome.threw (ascii "Runtime error while running LUA code."), sp3,
      by simp, by simp, by simp⟩
  by_cases h3 : r = 3
  · subst h3
    exact ⟨Outcome.threw (ascii "Syntax error in Lua code."), sc3,
      Outcome.threw (ascii "Syntax error in Lua code."), sp3, by simp, by simp, by simp⟩
  by_cases h4 : r = 4
  · subst h4
    exact ⟨Outcome.threw (ascii "Memory allocation error while running LUA code."), sc3,
      Outcome.threw (ascii "Memory allocation error while running LUA code."), sp3,
      by simp, by simp, by simp⟩
  by_cases h5 : r = 5
  · subst h5
    exact ⟨Outcome.threw (ascii "Error in Error function."), sc3,
      Outcome.threw (ascii "Error in Error function."), sp3, by simp, by simp, by simp⟩
  · exact ⟨Outcome.threw
        (ascii "Unknow error while running LUA code (err code: " ++ decimal r ++ ascii ")"),
      sc3, Outcome.threw
        (ascii "Unknow error while running LUA code (err code: " ++ decimal r ++ ascii ")"),
      sp3, by simp [h0, h1, h2, h3, h4, h5], by simp [h0, h1, h2, h3, h4, h5],
      by simp [h0, h1, h2, h3, h4, h5]⟩

/-- Both methods on the sample machine answering the status LUA_ERRMEM. -/
theorem pcall_translates_like_call_except_yield_witness :
    callSetup (sampleMachine 4) (ascii "f") LUA_GLOBALSINDEX 0 [] = some [Value.function 1] ∧
    ∃ oc sc op sp, call (sampleMachine 4) 3 (ascii "f") LUA_GLOBALSINDEX 0 [] = some (oc, sc) ∧
      pcall (sampleMachine 4) 3 0 [Value.function 1] = some (op, sp) ∧ op = oc := by
  refine ⟨by decide, ?_⟩
  obtain ⟨oc, sc, op, sp, hc, hp, hsame, _⟩ :=
    pcall_translates_like_call_except_yield (sampleMachine 4) 3 2 (ascii "f")
      LUA_GLOBALSINDEX 0 [] [Value.function 1] [Value.function 1] 4
      (by decide) (by decide) (by decide) (by decide) (by decide)
  exact ⟨oc, sc, op, sp, hc, hp, hsame (by decide)⟩

/-- C2, refuted as stated: on the status LUA_YIELD `call` returns normally
while `pcall` throws, so `pcall` does not return normally exactly when `call`
does. -/
theorem pcall_differs_from_call_on_yield :
    ((sampleMachine 1).resume [Value.function 1] 0).1 = LUA_YIELD ∧
    ((sampleMachine 1).pcall [Value.function 1] 0).1 = LUA_YIELD ∧
    (call (sampleMachine 1) 3 (ascii "f") LUA_GLOBALSINDEX 0 []).map Prod.fst =
      some Outcome.returned ∧
    (pcall (sampleMachine 1) 3 0 [Value.function 1]).map Prod.fst =
      some (Outcome.threw (ascii "Unknow error while running LUA code (err code: 1)")) ∧
    ¬ ((pcall (sampleMachine 1) 3 0 [Value.function 1]).map Prod.fst = some Outcome.returned ↔
       (call (sampleMachine 1) 3 (ascii "f") LUA_GLOBALSINDEX 0 []).map Prod.fst =
         some Outcome.returned) := by
  decide

/-! ## Registering native functions -/

/-- For an absolute index and for a pseudo-index, the index `declareFunc` hands
to `lua_settable` after its two pushes designates what `i` designated at entry.
For a relative index it does so only when the stack holds the table alone. -/
theorem declareFuncIndex_resolution (h : Nat) (i : Int) :
    (0 < i → i ≤ h → index2adr (h + 2) (declareFuncIndex i) = index2adr h i) ∧
    (i ≤ LUA_REGISTRYINDEX → index2adr (h + 2) (declareFuncIndex i) = index2adr h i) ∧
    (LUA_REGISTRYINDEX < i → i < 0 → -i ≤ h →
      (index2adr (h + 2) (declareFuncIndex i) = index2adr h i ↔ (i = -1 ∧ h = 1))) := by
  refine ⟨?_, ?_, ?_⟩
  · intro h1 h2
    have hidx : declareFuncIndex i = i := by
      unfold declareFuncIndex
      rw [if_neg (by omega)]
    rw [hidx]
    unfold index2adr
    rw [if_pos h1, if_pos h1, if_pos h2, if_pos (by push_cast; omega)]
  · intro h1
    have hidx : declareFuncIndex i = i := by
      unfold declareFuncIndex
      rw [if_neg (by omega)]
    have h2 : i ≤ -10000 := h1
    rw [hidx]
    unfold index2adr LUA_REGISTRYINDEX
    rw [if_neg (by omega), if_neg (by omega), if_neg (by omega), if_neg (by omega)]
  · intro h1 h2 h3
    have hidx : declareFuncIndex i = i + 2 := by
      unfold declareFuncIndex
      rw [if_pos ⟨h2, h1⟩]
    have h4 : -10000 < i := h1
    have hold : index2adr h i = Slot.stack ((h : Int) + 1 + i).toNat := by
      unfold index2adr LUA_REGISTRYINDEX
      rw [if_neg (by omega), if_pos h4, if_pos ⟨by omega, by omega⟩]
    rw [hidx, hold]
    by_cases hi1 : i = -1
    · subst hi1
      have hnew : index2adr (h + 2) (-1 + 2) = Slot.stack 1 := by
        unfold index2adr
        rw [if_pos (by decide), if_pos (by push_cast; omega)]
        rfl
      rw [hnew]
      simp only [Slot.stack.injEq, true_and]
      omega
    by_cases hi2 : i = -2
    · subst hi2
      have hnew : index2adr (h + 2) (-2 + 2) = Slot.invalid := by
        unfold index2adr LUA_REGISTRYINDEX
        rw [if_neg (by decide), if_pos (by decide), if_neg (by simp)]
      rw [hnew]
      simp
    · have hnew : index2adr (h + 2) (i + 2) = Slot.stack (((h + 2 : Nat) : Int) + 1 + (i + 2)).toNat := by
        unfold index2adr LUA_REGISTRYINDEX
        rw [if_neg (by omega), if_pos (by omega), if_pos ⟨by omega, by push_cast; omega⟩]
      rw [hnew]
      simp only [Slot.stack.injEq, hi1, false_and, iff_false]
      push_cast
      omega

/-- C3, evaluated where it fails. The stack holds table 0 then table 1 and
`declareFunc` is given the index -1, which designates table 1 (position 2).
After its two pushes it hands index 1 to `lua_settable`: the function is
stored in table 0 (position 1), not in the table designated at entry. -/
theorem declareFunc_relative_index_misses_table :
    index2adr [Value.table 0, Value.table 1].length (-1) = Slot.stack 2 ∧
    declareFuncIndex (-1) = 1 ∧
    declareFunc (ascii "f") 7 (-1) [Value.table 0, Value.table 1] =
      some ([Value.table 0, Value.table 1],
        ⟨Slot.stack 1, Value.string (ascii "f"), Value.function 7⟩) := by
  decide

/-! ## Object test -/

/-- C9, evaluated where it fails. The stack holds one table whose field
`__obj` is a userdata. With the absolute index 1 `isobject` answers true; with
the relative index -1, which designates the same table, the lookup is made on
the key string just pushed and `isobject` answers false. -/
theorem isobject_relative_index_misses_table :
    (sampleMachine 0).index (Value.table 1) (Value.string (ascii "__obj")) =
      some (Value.userdata 5) ∧
    isobject (sampleMachine 0) [Value.table 1] 1 = some (true, [Value.table 1]) ∧
    isobject (sampleMachine 0) [Value.table 1] (-1) = some (false, [Value.table 1]) := by
  decide

/-! ## Conversion to a string -/

/-- C8, refuted as stated: for a table at a valid index, a value of a
non-number type handled by the default branch, the pointer returned by
`lua_tolstring` is null. -/
theorem tostring_table_pointer_is_null :
    valueAt (sampleMachine 0) [Value.table 1] 1 = some (Value.table 1) ∧
    type (sampleMachine 0) [Value.table 1] 1 = LUA_TTABLE ∧
    (lua_tolstring sampleNumberText (valueAt (sampleMachine 0) [Value.table 1] 1)).1 = none ∧
    ¬ ((lua_tolstring sampleNumberText
        (valueAt (sampleMachine 0) [Value.table 1] 1)).1 ≠ none) := by
  decide

/-- C8, as amended. For the value v at a valid index, `tostring` returns:
"(nil)" for nil; "true" or "false" for a boolean; for a string, whose pointer
from `lua_tolstring` is non-null, the bytes of the string, of exactly the
reported length; for a table, function, userdata, light userdata or thread,
whose pointer from `lua_tolstring` is null with reported length 0, the empty
string. For every type outside numbers handled by the default branch the
length of the result is the reported length, and for every value the switch
returns, so the literal of line 250 is never returned. -/
theorem tostring_by_type (m : Machine) (to_string number2str : Nat → Bytes) (st : Stack)
    (i : Int) (v : Value) (hv : valueAt m st i = some v) :
    (v = Value.nil → tostring m to_string number2str st i = ascii "(nil)") ∧
    (∀ b, v = Value.boolean b →
      tostring m to_string number2str st i = if b then ascii "true" else ascii "false") ∧
    (∀ s, v = Value.string s →
      lua_tolstring number2str (valueAt m st i) = (some s, s.length) ∧
      tostring m to_string number2str st i = s) ∧
    (∀ ref, v = Value.table ref ∨ v = Value.function ref ∨ v = Value.userdata ref ∨
        v = Value.lightuserdata ref ∨ v = Value.thread ref →
      lua_tolstring number2str (valueAt m st i) = (none, 0) ∧
      tostring m to_string number2str st i = []) ∧
    ((∀ b, v ≠ Value.boolean b) → (∀ bits, v ≠ Value.number bits) → v ≠ Value.nil →
      (tostring m to_string number2str st i).length =
        (lua_tolstring number2str (valueAt m st i)).2) ∧
    (tostringSwitch m to_string number2str st i).isSome = true ∧
    tostringSwitch m to_string number2str st i =
      some (tostring m to_string number2str st i) := by
  refine ⟨?_, ?_, ?_, ?_, ?_, ?_, ?_⟩
  · intro h; subst h
    simp [tostring, tostringSwitch, type, hv, lua_type, LUA_TNIL]
  · intro b h; subst h
    cases b <;>
      simp [tostring, tostringSwitch, type, toboolean, hv, lua_type, lua_toboolean, LUA_TNIL,
        LUA_TBOOLEAN]
  · intro s h; subst h
    simp [tostring, tostringSwitch, type, hv, lua_type, lua_tolstring, stdString, LUA_TNIL,
      LUA_TBOOLEAN, LUA_TNUMBER, LUA_TSTRING]
  · intro ref h
    rcases h with h | h | h | h | h <;> subst h <;>
      simp [tostring, tostringSwitch, type, hv, lua_type, lua_tolstring, stdString, LUA_TNIL,
        LUA_TBOOLEAN, LUA_TNUMBER, LUA_TTABLE, LUA_TFUNCTION, LUA_TUSERDATA,
        LUA_TLIGHTUSERDATA, LUA_TTHREAD]
  · intro hb hn hnil
    cases v with
    | nil => exact absurd rfl hnil
    | boolean b => exact absurd rfl (hb b)
    | number bits => exact absurd rfl (hn bits)
    | string s =>
      simp [tostring, tostringSwitch, type, hv, lua_type, lua_tolstring, stdString, LUA_TNIL,
        LUA_TBOOLEAN, LUA_TNUMBER, LUA_TSTRING]
    | lightuserdata p =>
      simp [tostring, tostringSwitch, type, hv, lua_type, lua_tolstring, stdString, LUA_TNIL,
        LUA_TBOOLEAN, LUA_TNUMBER, LUA_TLIGHTUSERDATA]
    | table ref =>
      simp [tostring, tostringSwitch, type, hv, lua_type, lua_tolstring, stdString, LUA_TNIL,
        LUA_TBOOLEAN, LUA_TNUMBER, LUA_TTABLE]
    | function ref =>
      simp [tostring, tostringSwitch, type, hv, lua_type, lua_tolstring, stdString, LUA_TNIL,
        LUA_TBOOLEAN, LUA_TNUMBER, LUA_TFUNCTION]
    | userdata ref =>
      simp [tostring, tostringSwitch, type, hv, lua_type, lua_tolstring, stdString, LUA_TNIL,
        LUA_TBOOLEAN, LUA_TNUMBER, LUA_TUSERDATA]
    | thread ref =>
      simp [tostring, tostringSwitch, type, hv, lua_type, lua_tolstring, stdString, LUA_TNIL,
        LUA_TBOOLEAN, LUA_TNUMBER, LUA_TTHREAD]
  · unfold tostringSwitch
    split_ifs <;> rfl
  · unfold tostring tostringSwitch
    split_ifs <;> rfl

/-- The conversion of a string with an embedded NUL byte at the top of a
stack of two elements, by its relative index. -/
theorem tostring_by_type_witness :
    valueAt (sampleMachine 0) [Value.table 1, Value.string [97, 0, 98]] (-1) =
      some (Value.string [97, 0, 98]) ∧
    lua_tolstring sampleNumberText
      (valueAt (sampleMachine 0) [Value.table 1, Value.string [97, 0, 98]] (-1)) =
        (some [97, 0, 98], 3) ∧
    tostring (sampleMachine 0) sampleNumberText sampleNumberText
      [Value.table 1, Value.string [97, 0, 98]] (-1) = [97, 0, 98] :=
  ⟨by decide,
    ((tostring_by_type (sampleMachine 0) sampleNumberText sampleNumberText
      [Value.table 1, Value.string [97, 0, 98]] (-1) (Value.string [97, 0, 98])
      (by decide)).2.2.1 [97, 0, 98] rfl).1,
    ((tostring_by_type (sampleMachine 0) sampleNumberText sampleNumberText
      [Value.table 1, Value.string [97, 0, 98]] (-1) (Value.string [97, 0, 98])
      (by decide)).2.2.1 [97, 0, 98] rfl).2⟩

end Lua

end PCSX
